import Mathlib

/-!
Verification of the madlen-chat-app orchestration layer: a shallow embedding
of the model-catalog filter, the frontend request assembly, the API-boundary
field transforms, and the conversation store, together with theorems settling
the specification's claims about them.
-/

namespace Madlen

/-! ### Model catalog (backend `services/openrouter.py`, per backend README)

Upstream model entries carry an optional pricing dictionary whose keys may
themselves be absent; the Python code reads them with
`model.get("pricing", {}).get("prompt", "1")`, so a missing pricing dict or a
missing price key defaults to the non-free marker "1". -/

structure Pricing where
  prompt : Option String
  completion : Option String
deriving Repr, DecidableEq

structure UpstreamModel where
  id : String
  name : String
  description : String
  context_length : Nat
  pricing : Option Pricing
  input_modalities : List String
deriving Repr, DecidableEq

/-- `model.get("pricing", {}).get("prompt", "1")` -/
def pricingPrompt (m : UpstreamModel) : String :=
  match m.pricing with
  | none => "1"
  | some p => p.prompt.getD "1"

/-- `model.get("pricing", {}).get("completion", "1")` -/
def pricingCompletion (m : UpstreamModel) : String :=
  match m.pricing with
  | none => "1"
  | some p => p.completion.getD "1"

/-- The free-model filter of the catalog service:
`[model for model in all_models if ... prompt ... == "0" and ... completion ... == "0"]` -/
def free_models (all_models : List UpstreamModel) : List UpstreamModel :=
  all_models.filter (fun m => pricingPrompt m == "0" && pricingCompletion m == "0")

/-- `_check_vision_support`: `"image" in model.get("architecture", {}).get("input_modalities", [])` -/
def check_vision_support (m : UpstreamModel) : Bool :=
  m.input_modalities.contains "image"

/-- The fixed visual marker prepended to vision-capable model names. -/
def visionTag : String := "📷 "

structure ModelDescriptor where
  id : String
  name : String
  description : String
  context_length : Nat
  supports_vision : Bool
deriving Repr, DecidableEq

/-- Per-entry shaping: set the vision flag and decorate the display name,
`model["name"] = f"📷 {model['name']}"` when vision is supported. -/
def shapeModel (m : UpstreamModel) : ModelDescriptor :=
  let sv := check_vision_support m
  { id := m.id
    name := if sv then visionTag ++ m.name else m.name
    description := m.description
    context_length := m.context_length
    supports_vision := sv }

/-- `listFreeModels()`: filter to free entries, then shape each of them. -/
def listFreeModels (all_models : List UpstreamModel) : List ModelDescriptor :=
  (free_models all_models).map shapeModel

end Madlen

namespace Madlen

/-- The boolean freeness predicate of the filter holds exactly when pricing is
present with both prices equal to the zero-cost marker. -/
lemma freePred_iff (m : UpstreamModel) :
    (pricingPrompt m == "0" && pricingCompletion m == "0") = true ↔
    ∃ p, m.pricing = some p ∧ p.prompt = some "0" ∧ p.completion = some "0" := by
  have h1 : ("1" : String) ≠ "0" := by decide
  unfold pricingPrompt pricingCompletion
  cases m.pricing with
  | none => simp [h1]
  | some p =>
    cases hq : p.prompt with
    | none => simp [hq, h1]
    | some q =>
      cases hc : p.completion with
      | none => simp [hq, hc, h1]
      | some c => simp [hq, hc]

/-- C1: for an upstream entry of the input list, the entry is retained by the
free-model filter used by `listFreeModels` iff its pricing field is present
with both the prompt price and the completion price equal to the zero-cost
marker "0"; in particular an entry whose pricing field is absent is never
retained. -/
theorem free_models_mem_iff (all_models : List UpstreamModel) (m : UpstreamModel)
    (hm : m ∈ all_models) :
    (m ∈ free_models all_models ↔
      ∃ p, m.pricing = some p ∧ p.prompt = some "0" ∧ p.completion = some "0") ∧
    (m.pricing = none → m ∉ free_models all_models) := by
  constructor
  · rw [free_models, List.mem_filter, freePred_iff]
    exact ⟨fun h => h.2, fun h => ⟨hm, h⟩⟩
  · intro hnone hin
    rw [free_models, List.mem_filter, freePred_iff] at hin
    obtain ⟨-, p, hp, -⟩ := hin
    rw [hnone] at hp
    exact Option.noConfusion hp

/-- A concrete zero-cost vision-capable entry (Scenario A's first entry). -/
def demoFreeModel : UpstreamModel :=
  { id := "a", name := "A", description := "", context_length := 1000,
    pricing := some { prompt := some "0", completion := some "0" },
    input_modalities := ["text", "image"] }

/-- A concrete paid entry (Scenario A's second entry). -/
def demoPaidModel : UpstreamModel :=
  { id := "b", name := "B", description := "", context_length := 1000,
    pricing := some { prompt := some "0.001", completion := some "0" },
    input_modalities := ["text"] }

/-- Witness for C1 at a concrete catalog: the Scenario-A style two-entry list
retains exactly the entry priced prompt "0" / completion "0". -/
theorem free_models_mem_iff_witness :
    demoFreeModel ∈ free_models [demoFreeModel, demoPaidModel] :=
  (free_models_mem_iff [demoFreeModel, demoPaidModel] demoFreeModel (by decide)).1.mpr
    ⟨{ prompt := some "0", completion := some "0" }, rfl, rfl, rfl⟩

/-- Number of occurrences of the visual marker glyph in a string. -/
def glyphCount (s : String) : Nat := s.data.count '📷'

lemma glyphCount_visionTag_append (s : String) :
    glyphCount (visionTag ++ s) = glyphCount s + 1 := by
  cases s with
  | mk l => simp [glyphCount, visionTag, String.append, List.count_cons]

/-- C2: every retained entry is shaped into a descriptor of the
`listFreeModels` output; if "image" is among its declared input modalities the
descriptor has `supports_vision` true and its display name is the original
name prefixed once by the visual marker (the glyph occurs exactly one more
time than in the original name); otherwise `supports_vision` is false and the
name is unchanged. -/
theorem listFreeModels_vision (all_models : List UpstreamModel) (m : UpstreamModel)
    (hm : m ∈ free_models all_models) :
    shapeModel m ∈ listFreeModels all_models ∧
    ("image" ∈ m.input_modalities →
      (shapeModel m).supports_vision = true ∧
      (shapeModel m).name = visionTag ++ m.name ∧
      glyphCount (shapeModel m).name = glyphCount m.name + 1) ∧
    ("image" ∉ m.input_modalities →
      (shapeModel m).supports_vision = false ∧
      (shapeModel m).name = m.name) := by
  refine ⟨List.mem_map_of_mem shapeModel hm, ?_, ?_⟩
  · intro h
    have hc : check_vision_support m = true := by
      simpa [check_vision_support] using h
    refine ⟨?_, ?_, ?_⟩
    · simp [shapeModel, hc]
    · simp [shapeModel, hc]
    · simp [shapeModel, hc, glyphCount_visionTag_append]
  · intro h
    have hc : check_vision_support m = false := by
      simpa [check_vision_support] using h
    exact ⟨by simp [shapeModel, hc], by simp [shapeModel, hc]⟩

/-- Witness for C2: the vision-capable free entry of the Scenario-A catalog is
returned with `supports_vision` true and its name carrying the marker glyph
exactly once. -/
theorem listFreeModels_vision_witness :
    (shapeModel demoFreeModel).supports_vision = true ∧
    glyphCount (shapeModel demoFreeModel).name = 1 := by
  have h := (listFreeModels_vision [demoFreeModel] demoFreeModel
    (by decide)).2.1 (by decide)
  refine ⟨h.1, ?_⟩
  rw [h.2.2]
  decide

/-! ### Frontend chat request assembly (`App.tsx`, `handleSendMessage`)

The frontend keeps a session's messages in camelCase shape; when a turn is
sent, prior messages are mapped to `{role, content}` (dropping any stored
`imageUrl`), and the new user turn is appended, its content being either a
plain string or the two-part `[{type:"text"},{type:"image_url"}]` payload. -/

structure Message where
  id : String
  role : String
  content : String
  timestamp : Nat
  imageUrl : Option String
deriving Repr, DecidableEq

/-- Wire shape of one message's content: a plain string, or the structured
two-part payload `[{type:"text', text}, {type:"image_url", image_url:{url}}]`. -/
inductive WireContent where
  | str : String → WireContent
  | parts : String → String → WireContent
deriving Repr, DecidableEq

structure WireMessage where
  role : String
  content : WireContent
deriving Repr, DecidableEq

/-- `messageContent` of `handleSendMessage`: the two-part payload when an
image file is attached, the plain string otherwise. -/
def newTurnContent (content : String) (image : Option String) : WireContent :=
  match image with
  | some b64 => .parts content b64
  | none => .str content

/-- The `messages` array sent to `POST /chat/`: prior session messages mapped
to `{role: msg.role, content: msg.content}` followed by the new user turn. -/
def buildOutgoingMessages (history : List Message) (content : String)
    (image : Option String) : List WireMessage :=
  history.map (fun msg => { role := msg.role, content := .str msg.content }) ++
    [{ role := "user", content := newTurnContent content image }]

/-- C3: the outgoing sequence is exactly the prior messages in plain-text wire
shape (stored image references never included), followed by one new user turn
whose content is the two-part payload iff an image is attached and a plain
string otherwise. -/
theorem buildOutgoingMessages_spec (history : List Message) (content : String)
    (image : Option String) :
    (buildOutgoingMessages history content image).length = history.length + 1 ∧
    (∀ (i : Nat) (msg : Message), history[i]? = some msg →
      (buildOutgoingMessages history content image)[i]? =
        some ({ role := msg.role, content := WireContent.str msg.content } : WireMessage)) ∧
    (buildOutgoingMessages history content image).getLast? =
      some ({ role := "user", content := newTurnContent content image } : WireMessage) ∧
    (∀ url, image = some url →
      newTurnContent content image = WireContent.parts content url) ∧
    (image = none → newTurnContent content image = WireContent.str content) := by
  refine ⟨by simp [buildOutgoingMessages], ?_, ?_, ?_, ?_⟩
  · intro i msg hmsg
    have hi : i < history.length := (List.getElem?_eq_some.mp hmsg).1
    rw [buildOutgoingMessages,
      List.getElem?_append_left (by simpa using hi), List.getElem?_map, hmsg]
    rfl
  · rw [buildOutgoingMessages, List.getLast?_concat]
  · rintro url rfl
    rfl
  · rintro rfl
    rfl

/-- A concrete prior message that carries a stored image reference. -/
def demoHistoryMessage : Message :=
  { id := "m1", role := "user", content := "hi", timestamp := 1,
    imageUrl := some "data:image/png;base64,QUFB" }

/-- Witness for C3: with one prior image-carrying message and a fresh
image-attached turn, position 0 is the prior message as plain text and the
final turn is the two-part payload. -/
theorem buildOutgoingMessages_spec_witness :
    (buildOutgoingMessages [demoHistoryMessage] "look" (some "data:image/jpeg;base64,QkJC"))[0]? =
      some ({ role := "user", content := WireContent.str "hi" } : WireMessage) ∧
    newTurnContent "look" (some "data:image/jpeg;base64,QkJC") =
      WireContent.parts "look" "data:image/jpeg;base64,QkJC" := by
  have h := buildOutgoingMessages_spec [demoHistoryMessage] "look"
    (some "data:image/jpeg;base64,QkJC")
  exact ⟨h.2.1 0 demoHistoryMessage rfl, h.2.2.2.1 _ rfl⟩

/-! ### ConversationStore

The storage schema follows the SQLAlchemy models in the backend README
(`ChatSession` and `Message` with `session_id`, `image_url`, `timestamp`).
The service operations (`session_service.py`) are not under `src/`, so they
are modelled from the spec's ConversationStore contract. -/

structure StoredMessage where
  id : String
  session_id : String
  role : String
  content : String
  image_url : Option String
  timestamp : Nat
deriving Repr, DecidableEq

structure ChatSession where
  id : String
  title : String
  model_id : String
  created_at : Nat
  updated_at : Nat
deriving Repr, DecidableEq

/-- Store state: the two tables, each in insertion order. -/
structure Store where
  sessions : List ChatSession
  messages : List StoredMessage
deriving Repr, DecidableEq

inductive StoreError where
  | NotFound
deriving Repr, DecidableEq

def emptyStore : Store := { sessions := [], messages := [] }

def findSession (st : Store) (id : String) : Option ChatSession :=
  st.sessions.find? (fun s => s.id == id)

/-- The messages of one session, in stored (append) order. -/
def sessionMessages (st : Store) (id : String) : List StoredMessage :=
  st.messages.filter (fun m => m.session_id == id)

/-- Modelled from the spec: `createSession` of the missing
`session_service.py` — generates identity, stores the title (default label if
absent), stamps both timestamps equal at creation. -/
def createSession (st : Store) (id model_id : String) (title : Option String)
    (now : Nat) : Store × ChatSession :=
  let s : ChatSession :=
    { id := id, title := title.getD "New Chat", model_id := model_id,
      created_at := now, updated_at := now }
  ({ st with sessions := st.sessions ++ [s] }, s)

/-- Modelled from the spec: `getSession` of the missing `session_service.py`
— returns the session with its ordered messages, or fails with `NotFound`. -/
def getSession (st : Store) (id : String) :
    Except StoreError (ChatSession × List StoredMessage) :=
  match findSession st id with
  | none => .error .NotFound
  | some s => .ok (s, sessionMessages st id)

def insertByUpdated (s : ChatSession) : List ChatSession → List ChatSession
  | [] => [s]
  | t :: ts => if t.updated_at ≤ s.updated_at then s :: t :: ts
               else t :: insertByUpdated s ts

/-- Modelled from the spec: `listSessions` of the missing
`session_service.py` — session summaries ordered most-recently-updated
first. -/
def listSessions (st : Store) : List ChatSession :=
  st.sessions.foldr insertByUpdated []

/-- Modelled from the spec: `updateTitle` of the missing `session_service.py`
— fails with `NotFound` if absent; bumps the last-updated timestamp. -/
def updateTitle (st : Store) (id newTitle : String) (now : Nat) :
    Except StoreError Store :=
  match findSession st id with
  | none => .error .NotFound
  | some _ =>
    .ok { st with sessions := st.sessions.map (fun t =>
            if t.id == id then { t with title := newTitle, updated_at := now }
            else t) }

/-- Modelled from the spec: `appendMessage` of the missing
`session_service.py` — fails with `NotFound` if the session does not exist;
appends the message and bumps the session's last-updated timestamp in the
same logical operation. -/
def appendMessage (st : Store) (sid mid role content : String)
    (image : Option String) (now : Nat) :
    Except StoreError (Store × StoredMessage) :=
  match findSession st sid with
  | none => .error .NotFound
  | some _ =>
    let msg : StoredMessage :=
      { id := mid, session_id := sid, role := role, content := content,
        image_url := image, timestamp := now }
    .ok ({ sessions := st.sessions.map (fun t =>
             if t.id == sid then { t with updated_at := now } else t),
           messages := st.messages ++ [msg] }, msg)

/-- Modelled from the spec: `deleteSession` of the missing
`session_service.py` — fails with `NotFound` if absent; deletes all Messages
of the session and the session itself in one atomic unit (the explicit
two-step cascade of the design notes). -/
def deleteSession (st : Store) (id : String) : Except StoreError Store :=
  match findSession st id with
  | none => .error .NotFound
  | some _ =>
    .ok { sessions := st.sessions.filter (fun s => s.id != id),
          messages := st.messages.filter (fun m => m.session_id != id) }

/-- The store states reachable from the empty store through the
ConversationStore operations. -/
inductive Reachable : Store → Prop where
  | empty : Reachable emptyStore
  | create : ∀ st id model_id title now, Reachable st →
      Reachable (createSession st id model_id title now).1
  | append : ∀ st sid mid role content image now st' m, Reachable st →
      appendMessage st sid mid role content image now = .ok (st', m) →
      Reachable st'
  | update : ∀ st id t now st', Reachable st →
      updateTitle st id t now = .ok st' → Reachable st'
  | delete : ∀ st id st', Reachable st →
      deleteSession st id = .ok st' → Reachable st'

/-- No Message references a non-existent Session. -/
def noOrphans (st : Store) : Prop :=
  ∀ m ∈ st.messages, ∃ s ∈ st.sessions, s.id = m.session_id

lemma find?_map_id_preserved (f : ChatSession → ChatSession)
    (hf : ∀ t, (f t).id = t.id) (l : List ChatSession) (id : String) :
    (l.map f).find? (fun s => s.id == id) =
      (l.find? (fun s => s.id == id)).map f := by
  induction l with
  | nil => rfl
  | cons t ts ih =>
    simp only [List.map_cons, List.find?_cons, hf t]
    cases h : (t.id == id) <;> simp [h, ih]

lemma deleteSession_ok_shape (st : Store) (id : String) (st' : Store)
    (h : deleteSession st id = .ok st') :
    st'.sessions = st.sessions.filter (fun s => s.id != id) ∧
    st'.messages = st.messages.filter (fun m => m.session_id != id) := by
  unfold deleteSession at h
  cases hfind : findSession st id with
  | none => rw [hfind] at h; exact Except.noConfusion h
  | some s =>
    rw [hfind] at h
    cases h
    exact ⟨rfl, rfl⟩

lemma findSession_after_delete (st : Store) (id : String) (st' : Store)
    (h : deleteSession st id = .ok st') : findSession st' id = none := by
  obtain ⟨hs, -⟩ := deleteSession_ok_shape st id st' h
  rw [findSession, hs]
  rw [List.find?_eq_none]
  intro x hx
  have := List.of_mem_filter hx
  simpa [bne] using this

/-- C6: after a successful `deleteSession id`, `getSession id` and every
`appendMessage` on `id` fail with `NotFound`; and every store state reachable
through the ConversationStore operations has no orphan Message (each message's
session reference names an existing session). -/
theorem deleteSession_cascade :
    (∀ st id st', deleteSession st id = .ok st' →
      getSession st' id = .error .NotFound ∧
      (∀ mid role content image now,
        appendMessage st' id mid role content image now = .error .NotFound)) ∧
    (∀ st, Reachable st → noOrphans st) := by
  constructor
  · intro st id st' h
    have hnone := findSession_after_delete st id st' h
    constructor
    · unfold getSession
      rw [hnone]
    · intro mid role content image now
      unfold appendMessage
      rw [hnone]
  · intro st hst
    induction hst with
    | empty => intro m hm; exact absurd hm (List.not_mem_nil m)
    | create st id model_id title now _ ih =>
      intro m hm
      obtain ⟨s, hs, hid⟩ := ih m hm
      exact ⟨s, List.mem_append_left _ hs, hid⟩
    | append st sid mid role content image now st' msg _ happ ih =>
      unfold appendMessage at happ
      cases hfind : findSession st sid with
      | none => rw [hfind] at happ; exact Except.noConfusion happ
      | some s0 =>
        rw [hfind] at happ
        cases happ
        intro m hm
        rcases List.mem_append.mp hm with hold | hnew
        · obtain ⟨s, hs, hid⟩ := ih m hold
          refine ⟨_, List.mem_map_of_mem _ hs, ?_⟩
          split <;> exact hid
        · have hmsg : m.session_id = sid := by
            rcases List.mem_singleton.mp hnew with rfl
            rfl
          have hs0 : s0 ∈ st.sessions := List.mem_of_find?_eq_some hfind
          have hs0id : s0.id = sid := by
            have := List.find?_some hfind
            simpa using this
          refine ⟨_, List.mem_map_of_mem _ hs0, ?_⟩
          split <;> exact hs0id.trans hmsg.symm
    | update st id t now st' _ hupd ih =>
      unfold updateTitle at hupd
      cases hfind : findSession st id with
      | none => rw [hfind] at hupd; exact Except.noConfusion hupd
      | some s0 =>
        rw [hfind] at hupd
        cases hupd
        intro m hm
        obtain ⟨s, hs, hid⟩ := ih m hm
        refine ⟨_, List.mem_map_of_mem _ hs, ?_⟩
        split <;> exact hid
    | delete st id st' _ hdel ih =>
      obtain ⟨hs, hmsg⟩ := deleteSession_ok_shape st id st' hdel
      intro m hm
      rw [hmsg] at hm
      have hmem := List.mem_of_mem_filter hm
      have hne := List.of_mem_filter hm
      obtain ⟨s, hsmem, hid⟩ := ih m hmem
      refine ⟨s, ?_, hid⟩
      rw [hs]
      refine List.mem_filter.mpr ⟨hsmem, ?_⟩
      simpa [bne, hid] using hne

/-- A one-session demonstration store holding five messages. -/
def demoStore : Store :=
  { sessions := [{ id := "s1", title := "Chat 1", model_id := "m1",
                   created_at := 0, updated_at := 5 }],
    messages :=
      [{ id := "m1", session_id := "s1", role := "user", content := "a",
         image_url := none, timestamp := 1 },
       { id := "m2", session_id := "s1", role := "assistant", content := "b",
         image_url := none, timestamp := 2 },
       { id := "m3", session_id := "s1", role := "user", content := "c",
         image_url := none, timestamp := 3 },
       { id := "m4", session_id := "s1", role := "assistant", content := "d",
         image_url := none, timestamp := 4 },
       { id := "m5", session_id := "s1", role := "user", content := "e",
         image_url := none, timestamp := 5 }] }

/-- Witness for C6 at the concrete store: after deleting the five-message
session, `getSession` and `appendMessage` on it both fail with `NotFound`. -/
theorem deleteSession_cascade_witness :
    getSession { sessions := [], messages := [] } "s1" =
      .error StoreError.NotFound ∧
    appendMessage { sessions := [], messages := [] } "s1" "m6" "user" "f"
      none 6 = .error StoreError.NotFound := by
  have h := deleteSession_cascade.1 demoStore "s1"
    { sessions := [], messages := [] } rfl
  exact ⟨h.1, h.2 "m6" "user" "f" none 6⟩

/-- The arguments of one `appendMessage` call. -/
structure MessageSpec where
  mid : String
  role : String
  content : String
  image : Option String
  now : Nat
deriving Repr, DecidableEq

/-- The stored message an `appendMessage` call produces in session `sid`. -/
def mkStoredMessage (sid : String) (sp : MessageSpec) : StoredMessage :=
  { id := sp.mid, session_id := sid, role := sp.role, content := sp.content,
    image_url := sp.image, timestamp := sp.now }

/-- A finite sequence of `appendMessage` calls on one session. -/
def appendAll (st : Store) (sid : String) :
    List MessageSpec → Except StoreError Store
  | [] => .ok st
  | sp :: rest =>
    match appendMessage st sid sp.mid sp.role sp.content sp.image sp.now with
    | .error e => .error e
    | .ok (st', _) => appendAll st' sid rest

/-- The store a successful `appendMessage` call leaves behind. -/
def afterAppend (st : Store) (sid : String) (sp : MessageSpec) : Store :=
  { sessions := st.sessions.map (fun t =>
      if t.id == sid then { t with updated_at := sp.now } else t),
    messages := st.messages ++ [mkStoredMessage sid sp] }

lemma findSession_after_append (st : Store) (sid mid role content : String)
    (image : Option String) (now : Nat) (st' : Store) (m : StoredMessage)
    (h : appendMessage st sid mid role content image now = .ok (st', m))
    (x : String) :
    findSession st' x = (findSession st x).map
      (fun t => if t.id == sid then { t with updated_at := now } else t) := by
  unfold appendMessage at h
  cases hfind : findSession st sid with
  | none => rw [hfind] at h; exact Except.noConfusion h
  | some s0 =>
    rw [hfind] at h
    cases h
    exact find?_map_id_preserved _ (fun t => by split <;> rfl) st.sessions x

lemma sessionMessages_after_append (st : Store)
    (sid mid role content : String) (image : Option String) (now : Nat)
    (st' : Store) (m : StoredMessage)
    (h : appendMessage st sid mid role content image now = .ok (st', m)) :
    st'.messages = st.messages ++ [m] ∧
    m = { id := mid, session_id := sid, role := role, content := content,
          image_url := image, timestamp := now } ∧
    sessionMessages st' sid = sessionMessages st sid ++ [m] := by
  unfold appendMessage at h
  cases hfind : findSession st sid with
  | none => rw [hfind] at h; exact Except.noConfusion h
  | some s0 =>
    rw [hfind] at h
    cases h
    refine ⟨rfl, rfl, ?_⟩
    unfold sessionMessages
    rw [List.filter_append]
    simp

/-- C9: for every session present in the store and every finite sequence of
`appendMessage` calls on it (with arbitrary, possibly equal, creation
timestamps), the sequence succeeds and `getSession` afterwards returns the
session's prior messages followed by the new messages in exactly the order
they were appended. -/
theorem appendMessage_order (sid : String) (specs : List MessageSpec) :
    ∀ st : Store, (findSession st sid).isSome = true →
    ∃ st' s, appendAll st sid specs = .ok st' ∧
      getSession st' sid =
        .ok (s, sessionMessages st sid ++ specs.map (mkStoredMessage sid)) := by
  induction specs with
  | nil =>
    intro st hsome
    cases hfind : findSession st sid with
    | none => rw [hfind] at hsome; exact Bool.noConfusion hsome
    | some s =>
      refine ⟨st, s, rfl, ?_⟩
      unfold getSession
      rw [hfind]
      simp
  | cons sp rest ih =>
    intro st hsome
    cases hfind : findSession st sid with
    | none => rw [hfind] at hsome; exact Bool.noConfusion hsome
    | some s0 =>
      have happ : appendMessage st sid sp.mid sp.role sp.content sp.image
          sp.now = .ok (afterAppend st sid sp, mkStoredMessage sid sp) := by
        unfold appendMessage
        rw [hfind]
        rfl
      set st1 : Store := afterAppend st sid sp with hst1
      have hsome1 : (findSession st1 sid).isSome = true := by
        rw [findSession_after_append st sid sp.mid sp.role sp.content sp.image
          sp.now st1 (mkStoredMessage sid sp) happ sid, hfind]
        rfl
      obtain ⟨st', s, hall, hget⟩ := ih st1 hsome1
      refine ⟨st', s, ?_, ?_⟩
      · unfold appendAll
        rw [happ]
        exact hall
      · have hmsgs := (sessionMessages_after_append st sid sp.mid sp.role
          sp.content sp.image sp.now st1 (mkStoredMessage sid sp) happ).2.2
        rw [hget, hmsgs, List.map_cons, List.append_assoc]
        rfl

/-- Two append calls carrying the same creation timestamp. -/
def demoSpecA : MessageSpec :=
  { mid := "x1", role := "user", content := "hi", image := none, now := 7 }

/-- Second append call, same timestamp as `demoSpecA`. -/
def demoSpecB : MessageSpec :=
  { mid := "x2", role := "assistant", content := "hello", image := none,
    now := 7 }

/-- Witness for C9: two appended messages with equal timestamps come back
from `getSession` after the five prior messages, in append order. -/
theorem appendMessage_order_witness :
    ∃ st' s, appendAll demoStore "s1" [demoSpecA, demoSpecB] = .ok st' ∧
      getSession st' "s1" = .ok (s, sessionMessages demoStore "s1" ++
        [mkStoredMessage "s1" demoSpecA, mkStoredMessage "s1" demoSpecB]) := by
  have h := appendMessage_order "s1" [demoSpecA, demoSpecB] demoStore rfl
  simpa using h

/-! ### ChatOrchestrator (backend `routes/chat.py`, not under `src/`)

`sendTurn` is modelled from the spec's §4.3 pipeline: resolve the session,
assemble history plus the new turn into wire shape, persist the user turn,
invoke the upstream completion capability, treat an empty choice list as
`UpstreamRejected`, persist the assistant reply, and answer with the first
choice's content. With no session identifier the turn is session-less and
nothing is persisted. -/

structure CompletionChoice where
  role : String
  content : String
deriving Repr, DecidableEq

structure CompletionResult where
  id : String
  model : String
  choices : List CompletionChoice
deriving Repr, DecidableEq

inductive OrchError where
  | NotFound
  | UpstreamUnavailable
  | UpstreamRejected
deriving Repr, DecidableEq

/-- A stored message sent as plain text on the wire. -/
def storedToWire (m : StoredMessage) : WireMessage :=
  { role := m.role, content := .str m.content }

/-- Modelled from the spec: request assembly of the missing `routes/chat.py`
— prior messages of the resolved session in plain-text wire shape followed by
the new user turn. -/
def assembleWire (st : Store) (sessionId : Option String) (content : String)
    (image : Option String) : List WireMessage :=
  match sessionId with
  | none => [{ role := "user", content := newTurnContent content image }]
  | some sid => (sessionMessages st sid).map storedToWire ++
      [{ role := "user", content := newTurnContent content image }]

/-- Modelled from the spec: `sendTurn` of the missing `routes/chat.py`. -/
def sendTurn (st : Store) (modelId : String) (sessionId : Option String)
    (content : String) (image : Option String)
    (upstream : String → List WireMessage → Except OrchError CompletionResult)
    (uid aid : String) (now : Nat) : Except OrchError (Store × String) :=
  match sessionId with
  | none =>
    match upstream modelId (assembleWire st none content image) with
    | .error e => .error e
    | .ok r =>
      match r.choices with
      | [] => .error .UpstreamRejected
      | c :: _ => .ok (st, c.content)
  | some sid =>
    match findSession st sid with
    | none => .error .NotFound
    | some _ =>
      match appendMessage st sid uid "user" content image now with
      | .error _ => .error .NotFound
      | .ok (st1, _) =>
        match upstream modelId (assembleWire st (some sid) content image) with
        | .error e => .error e
        | .ok r =>
          match r.choices with
          | [] => .error .UpstreamRejected
          | c :: _ =>
            match appendMessage st1 sid aid "assistant" c.content none now with
            | .error _ => .error .NotFound
            | .ok (st2, _) => .ok (st2, c.content)

/-- C4: a `sendTurn` with no session identifier persists nothing — any
successful outcome carries the unchanged store, so `listSessions` and the
message table are exactly as before the call — while the upstream completion
(when it yields a choice) is still returned to the caller. -/
theorem sendTurn_sessionless (st : Store) (modelId content : String)
    (image : Option String)
    (upstream : String → List WireMessage → Except OrchError CompletionResult)
    (uid aid : String) (now : Nat) :
    (∀ st' reply,
      sendTurn st modelId none content image upstream uid aid now =
        .ok (st', reply) →
      st' = st ∧ listSessions st' = listSessions st ∧
        st'.messages = st.messages) ∧
    (∀ r c cs,
      upstream modelId (assembleWire st none content image) = .ok r →
      r.choices = c :: cs →
      sendTurn st modelId none content image upstream uid aid now =
        .ok (st, c.content)) := by
  constructor
  · intro st' reply h
    simp only [sendTurn] at h
    split at h
    · exact Except.noConfusion h
    · split at h
      · exact Except.noConfusion h
      · injection h with h1
        injection h1 with h2 h3
        exact ⟨h2.symm, by rw [h2], by rw [h2]⟩
  · intro r c cs hu hc
    simp [sendTurn, hu, hc]

/-- A degenerate upstream capability returning one fixed choice. -/
def demoUpstream : String → List WireMessage → Except OrchError CompletionResult :=
  fun _ _ => .ok { id := "gen-1", model := "m1",
                   choices := [{ role := "assistant", content := "hello" }] }

/-- Witness for C4 (Scenario C): a session-less turn against the one-choice
upstream returns the reply with the store untouched. -/
theorem sendTurn_sessionless_witness :
    sendTurn demoStore "m1" none "hi" none demoUpstream "u1" "a1" 9 =
      .ok (demoStore, "hello") :=
  (sendTurn_sessionless demoStore "m1" "hi" none demoUpstream "u1" "a1"
    9).2 _ _ _ rfl rfl

/-- C5: when the upstream completion call succeeds but yields an empty choice
list, `sendTurn` (with the session resolvable, or session-less) fails with
`UpstreamRejected`; and every successful `sendTurn` outcome stems from a
non-empty choice list, carrying the first choice's content as the reply. -/
theorem sendTurn_empty_choices (st : Store) (modelId : String)
    (sessionId : Option String) (content : String) (image : Option String)
    (upstream : String → List WireMessage → Except OrchError CompletionResult)
    (uid aid : String) (now : Nat) :
    (∀ r, upstream modelId (assembleWire st sessionId content image) = .ok r →
      r.choices = [] →
      (sessionId = none ∨
        ∃ sid, sessionId = some sid ∧ (findSession st sid).isSome = true) →
      sendTurn st modelId sessionId content image upstream uid aid now =
        .error .UpstreamRejected) ∧
    (∀ st' reply,
      sendTurn st modelId sessionId content image upstream uid aid now =
        .ok (st', reply) →
      ∃ r c cs,
        upstream modelId (assembleWire st sessionId content image) = .ok r ∧
        r.choices = c :: cs ∧ reply = c.content) := by
  constructor
  · intro r hu hc hres
    rcases hres with rfl | ⟨sid, rfl, hsome⟩
    · simp [sendTurn, hu, hc]
    · cases hfind : findSession st sid with
      | none => rw [hfind] at hsome; exact Bool.noConfusion hsome
      | some s0 =>
        have happ : appendMessage st sid uid "user" content image now =
            .ok (afterAppend st sid ⟨uid, "user", content, image, now⟩,
              mkStoredMessage sid ⟨uid, "user", content, image, now⟩) := by
          unfold appendMessage
          rw [hfind]
          rfl
        simp [sendTurn, hfind, happ, hu, hc]
  · intro st' reply h
    cases sessionId with
    | none =>
      simp only [sendTurn] at h
      split at h
      · exact Except.noConfusion h
      · rename_i r hu
        split at h
        · exact Except.noConfusion h
        · rename_i c cs hc
          injection h with h1
          injection h1 with h2 h3
          exact ⟨r, c, cs, hu, hc, h3.symm⟩
    | some sid =>
      simp only [sendTurn] at h
      split at h
      · exact Except.noConfusion h
      · split at h
        · exact Except.noConfusion h
        · split at h
          · exact Except.noConfusion h
          · rename_i r hu
            split at h
            · exact Except.noConfusion h
            · rename_i c cs hc
              split at h
              · exact Except.noConfusion h
              · injection h with h1
                injection h1 with h2 h3
                exact ⟨r, c, cs, hu, hc, h3.symm⟩

/-- An upstream capability that succeeds with zero choices. -/
def demoEmptyUpstream :
    String → List WireMessage → Except OrchError CompletionResult :=
  fun _ _ => .ok { id := "gen-2", model := "m1", choices := [] }

/-- Witness for C5: against the zero-choice upstream, a turn on the existing
demo session fails with `UpstreamRejected`. -/
theorem sendTurn_empty_choices_witness :
    sendTurn demoStore "m1" (some "s1") "hi" none demoEmptyUpstream "u1"
      "a1" 9 = .error OrchError.UpstreamRejected :=
  (sendTurn_empty_choices demoStore "m1" (some "s1") "hi" none
    demoEmptyUpstream "u1" "a1" 9).1 _ rfl rfl (.inr ⟨"s1", rfl, rfl⟩)

/-! ### Frontend message entry (`ChatInput.tsx`) -/

/-- `message.trim()` is falsy in JS exactly when every character of the
message is whitespace (the trimmed string is then empty). -/
def isBlank (s : String) : Bool := s.data.all Char.isWhitespace

/-- `handleSubmit` of `ChatInput.tsx`: `if (!message.trim() && !imageFile)
return;` then `onSendMessage(message, imageFile || undefined)` — the
submission is blocked only when the trimmed text is empty AND no image file
is selected; otherwise the untrimmed text and the optional image are
forwarded as the new user turn. -/
def handleSubmit (message : String) (imageFile : Option String) :
    Option (String × Option String) :=
  if isBlank message && imageFile.isNone then none
  else some (message, imageFile)

/-- C7 counterexample: it is not true that every turn `handleSubmit` emits
with an image attached has non-empty text — submitting an empty text with an
image selected passes the guard and produces a user turn whose image is
present and whose content is the empty string. -/
theorem handleSubmit_image_only_counterexample :
    ¬ (∀ (content : String) (image : Option String)
        (out : String × Option String),
        handleSubmit content image = some out → image.isSome = true →
        out.1 ≠ "") := by
  intro h
  exact h "" (some "data:image/png;base64,QUFB")
    ("", some "data:image/png;base64,QUFB") rfl rfl rfl

/-- C7 amended: the entry point blocks a submission iff the trimmed text is
empty and no image is attached; an accepted submission forwards text and
image unchanged, so a turn with an image may carry empty textual content
(the image can replace, not only augment, the text). -/
theorem handleSubmit_amended (message : String) (imageFile : Option String) :
    (handleSubmit message imageFile = none ↔
      (isBlank message = true ∧ imageFile = none)) ∧
    (∀ out, handleSubmit message imageFile = some out →
      out = (message, imageFile)) := by
  unfold handleSubmit
  by_cases h : (isBlank message && imageFile.isNone) = true
  · rw [if_pos h]
    simp only [Bool.and_eq_true, Option.isNone_iff_eq_none] at h
    exact ⟨⟨fun _ => h, fun _ => rfl⟩, fun out hout => Option.noConfusion hout⟩
  · rw [if_neg h]
    refine ⟨⟨fun hsome => Option.noConfusion hsome, fun hand => ?_⟩,
      fun out hout => ?_⟩
    · exact absurd (by simp [hand.1, hand.2]) h
    · injection hout with h1
      exact h1.symm

/-- Witness for C7 (amended): a whitespace-only text with no image is
blocked, while a non-blank text is accepted. -/
theorem handleSubmit_amended_witness :
    handleSubmit " " none = none ∧ handleSubmit "x" none ≠ none := by
  constructor
  · exact (handleSubmit_amended " " none).1.mpr ⟨by decide, rfl⟩
  · intro hnone
    have := ((handleSubmit_amended "x" none).1.mp hnone).1
    exact absurd this (by decide)

/-! ### API-boundary field transforms (`services/api.ts`) -/

/-- `transformMessage` of `api.ts`: renames the stored snake_case fields to
the client-facing camelCase ones (`image_url` → `imageUrl`), keeping every
value; the timestamp is re-wrapped (`new Date(msg.timestamp)`), modelled as
the identical instant. -/
def transformMessage (msg : StoredMessage) : Message :=
  { id := msg.id, role := msg.role, content := msg.content,
    timestamp := msg.timestamp, imageUrl := msg.image_url }

/-- The raw session shape received from the backend at the API boundary. -/
structure ServerSession where
  id : String
  title : String
  model_id : String
  messages : Option (List StoredMessage)
  created_at : Nat
  updated_at : Nat
deriving Repr, DecidableEq

/-- The frontend `ChatSession` interface of `types/index.ts`. -/
structure ClientSession where
  id : String
  title : String
  modelId : String
  messages : List Message
  createdAt : Nat
  updatedAt : Nat
deriving Repr, DecidableEq

/-- `transformSession` of `api.ts`:
`messages: session.messages ? session.messages.map(transformMessage) : []`
plus the snake_case → camelCase renames. -/
def transformSession (session : ServerSession) : ClientSession :=
  { id := session.id, title := session.title, modelId := session.model_id,
    messages := match session.messages with
      | some ms => ms.map transformMessage
      | none => [],
    createdAt := session.created_at, updatedAt := session.updated_at }

/-- C8: the API boundary renames the storage fields to the camelCase names
and changes no value; in particular a message persisted with an image
reference is retrieved (as the last message of its session) carrying the
identical image reference string through `transformMessage`. -/
theorem transformMessage_roundtrip :
    (∀ m : StoredMessage,
      (transformMessage m).id = m.id ∧ (transformMessage m).role = m.role ∧
      (transformMessage m).content = m.content ∧
      (transformMessage m).timestamp = m.timestamp ∧
      (transformMessage m).imageUrl = m.image_url) ∧
    (∀ s : ServerSession,
      (transformSession s).id = s.id ∧ (transformSession s).title = s.title ∧
      (transformSession s).modelId = s.model_id ∧
      (transformSession s).createdAt = s.created_at ∧
      (transformSession s).updatedAt = s.updated_at) ∧
    (∀ (st : Store) (sid mid role content url : String) (now : Nat)
      (st' : Store) (m : StoredMessage),
      appendMessage st sid mid role content (some url) now = .ok (st', m) →
      (sessionMessages st' sid).getLast? = some m ∧
      (transformMessage m).imageUrl = some url) := by
  refine ⟨fun m => ⟨rfl, rfl, rfl, rfl, rfl⟩,
    fun s => ⟨rfl, rfl, rfl, rfl, rfl⟩, ?_⟩
  intro st sid mid role content url now st' m happ
  obtain ⟨-, hm, hsm⟩ := sessionMessages_after_append st sid mid role content
    (some url) now st' m happ
  constructor
  · rw [hsm, List.getLast?_concat]
  · rw [hm]
    rfl

/-- Witness for C8: appending a message with a concrete data-URI image to the
demo store and reading the session back yields that message last, and its
transformed `imageUrl` is the identical string. -/
theorem transformMessage_roundtrip_witness :
    (sessionMessages (afterAppend demoStore "s1"
      { mid := "m6", role := "user", content := "pic",
        image := some "data:image/png;base64,QUFB", now := 6 }) "s1").getLast?
      = some (mkStoredMessage "s1"
        { mid := "m6", role := "user", content := "pic",
          image := some "data:image/png;base64,QUFB", now := 6 }) ∧
    (transformMessage (mkStoredMessage "s1"
      { mid := "m6", role := "user", content := "pic",
        image := some "data:image/png;base64,QUFB", now := 6 })).imageUrl =
      some "data:image/png;base64,QUFB" :=
  transformMessage_roundtrip.2.2 demoStore "s1" "m6" "user" "pic"
    "data:image/png;base64,QUFB" 6 _ _ rfl

/-- C10: `transformSession` is total on session objects without an eagerly
loaded messages field — an absent `messages` yields the empty list (message
count zero), not an error. -/
theorem transformSession_total (s : ServerSession) (h : s.messages = none) :
    (transformSession s).messages = [] ∧
    (transformSession s).messages.length = 0 := by
  constructor <;> simp [transformSession, h]

/-- A session summary as returned by `GET /sessions/` without messages. -/
def demoSummarySession : ServerSession :=
  { id := "s9", title := "T", model_id := "m1", messages := none,
    created_at := 0, updated_at := 0 }

/-- Witness for C10: the concrete summary session renders zero messages. -/
theorem transformSession_total_witness :
    (transformSession demoSummarySession).messages = [] ∧
    (transformSession demoSummarySession).messages.length = 0 :=
  transformSession_total demoSummarySession rfl

end Madlen
